import Mathlib

/-!
# Verification of the PandemicProfiler forecasting core

Shallow embedding of `Model/covid_prediction_model.py` (class
`COVIDPredictionModel`) together with the parts of the forecasting core that
the source delegates to external libraries (the trend/seasonality
decomposition model and the supervised ensemble), which are modelled from the
specification where so noted.

Conventions of the embedding:
* A pandas `DataFrame` of raw observations is a `RawFrame`: a list of row
  records plus one boolean per (potentially absent) column.  When a column's
  presence flag is `false` the corresponding row fields are ignored, mirroring
  an absent column.
* Dates are day numbers (`Nat`); an unparsable date cell is `none`
  (`pd.to_datetime(..., errors='coerce')` produced `NaT`).
* Numeric cells are `Option ℚ`; `none` models a value that
  `pd.to_numeric(..., errors='coerce')` turns into `NaN`.
* A raised Python exception is `Except.error`; `None` results are `Option`.
-/

namespace PandemicProfiler

/-- Errors observable from the embedded code: raw Python exceptions
(`keyError`, `typeErrorNone` for operating on `None`) and the structured
model errors of the specification's taxonomy (`notFitted`,
`insufficientHistory`). -/
inductive PyError where
  | keyError
  | typeErrorNone
  | notFitted
  | modelNotFit
  | insufficientHistory
deriving DecidableEq, Repr

/-- One raw observation row.  Field values model the cell contents; whether a
column is present at all is recorded in `RawFrame`. -/
structure RawRow where
  state : String
  date : Option Nat
  confirmed : Option ℚ
  deaths : Option ℚ
deriving DecidableEq, Repr

/-- A raw input batch: rows plus column-presence flags for the four columns
the model reads (`State/UnionTerritory`, `Date`, `Confirmed`, `Deaths`). -/
structure RawFrame where
  hasStateCol : Bool
  hasDateCol : Bool
  hasConfirmedCol : Bool
  hasDeathsCol : Bool
  rows : List RawRow
deriving DecidableEq, Repr

/-- A preprocessed row: parsed date, derived calendar fields, coerced counts
and the two rolling-mean features added by `preprocess_data`. -/
structure ProcRow where
  state : String
  date : Nat
  day : Nat
  month : Nat
  year : Nat
  dayOfWeek : Nat
  confirmed : ℚ
  deaths : ℚ
  confirmed_ma7 : ℚ
  death_ma7 : ℚ
deriving DecidableEq, Repr, Inhabited

/-- Output frame of `preprocess_data`. -/
structure ProcFrame where
  rows : List ProcRow
deriving DecidableEq, Repr

/-- Proleptic-Gregorian `(year, month, day)` of a day number (epoch
0000-03-01), the closed-form civil-from-days computation backing the
`.dt.year/.dt.month/.dt.day` accessors used at lines 43-45 of the source. -/
def civilOfDays (z : Nat) : Nat × Nat × Nat :=
  let era := z / 146097
  let doe := z % 146097
  let yoe := (doe - doe / 1460 + doe / 36524 - doe / 146096) / 365
  let y := yoe + era * 400
  let doy := doe - (365 * yoe + yoe / 4 - yoe / 100)
  let mp := (5 * doy + 2) / 153
  let d := doy - (153 * mp + 2) / 5 + 1
  let m := if mp < 10 then mp + 3 else mp - 9
  (if m ≤ 2 then y + 1 else y, m, d)

/-- `.dt.dayofweek` (Monday = 0) of a day number. -/
def dayOfWeekOf (z : Nat) : Nat := (z + 2) % 7

/-- The sort key of `df.sort_values('Date')`: compare parsed dates. -/
def rowLe (a b : RawRow × Nat) : Prop := a.2 ≤ b.2

instance : DecidableRel rowLe := fun a b => inferInstanceAs (Decidable (a.2 ≤ b.2))

instance : IsTotal (RawRow × Nat) rowLe := ⟨fun a b => Nat.le_total a.2 b.2⟩

instance : IsTrans (RawRow × Nat) rowLe := ⟨fun _ _ _ => Nat.le_trans⟩

/-- `df.sort_values('Date')` (line 41): sort rows by parsed date.  The source
uses pandas' default quicksort, whose tie order is unspecified; the embedding
resolves ties stably (insertion sort). -/
def sortRows (l : List (RawRow × Nat)) : List (RawRow × Nat) := l.insertionSort rowLe

/-- `Series.rolling(window=7, min_periods=1).mean()` on a list of values:
entry `k` is the mean of the trailing window `xs[k+1-7 ... k]` (clipped at the
start, so the window always contains between 1 and 7 values). -/
def rollingMeanList (xs : List ℚ) : List ℚ :=
  (List.range xs.length).map (fun k =>
    let win := (xs.take (k + 1)).drop (k + 1 - 7)
    win.sum / (win.length : ℚ))

/-- `df.groupby('State/UnionTerritory')[col].transform(rolling mean)` (lines
59-61 and 66-68): row `i` receives the rolling-mean entry of its own region's
subsequence at the row's position within that subsequence. -/
def maTransform (get : ProcRow → ℚ) (bs : List ProcRow) : List ℚ :=
  bs.enum.map (fun ib =>
    let grp := (bs.filter (fun x => x.state == ib.2.state)).map get
    let pos := ((bs.take ib.1).filter (fun x => x.state == ib.2.state)).length
    (rollingMeanList grp).getD pos 0)

/-- Attach the two MA7 columns (lines 57-70).  With no
`State/UnionTerritory` column both columns are the scalar 0, which the base
rows already carry. -/
def withMA (hasState : Bool) (base : List ProcRow) : List ProcRow :=
  if hasState then
    let cs := maTransform (fun r => r.confirmed) base
    let ds := maTransform (fun r => r.deaths) base
    base.enum.map (fun ib =>
      { ib.2 with confirmed_ma7 := cs.getD ib.1 0, death_ma7 := ds.getD ib.1 0 })
  else base

/-- Build one preprocessed row from a kept raw row and its parsed date:
calendar fields (lines 43-46) and the numeric coercion
`pd.to_numeric(..., errors='coerce').fillna(0)` (lines 48-55); a missing
`Confirmed`/`Deaths` column is replaced by the constant 0 column. -/
def mkProcRow (hasConf hasDeaths : Bool) (rd : RawRow × Nat) : ProcRow :=
  { state := rd.1.state
    date := rd.2
    day := (civilOfDays rd.2).2.2
    month := (civilOfDays rd.2).2.1
    year := (civilOfDays rd.2).1
    dayOfWeek := dayOfWeekOf rd.2
    confirmed := if hasConf then rd.1.confirmed.getD 0 else 0
    deaths := if hasDeaths then rd.1.deaths.getD 0 else 0
    confirmed_ma7 := 0
    death_ma7 := 0 }

/-- Body of the `try` block of `preprocess_data` (lines 30-72): accessing the
absent `Date` column raises `KeyError` (line 34); otherwise rows with
unparsable dates are dropped (line 40), rows are sorted by date (line 41),
calendar/coerced columns are added and the MA7 columns are attached. -/
def preprocessCore (df : RawFrame) : Except PyError ProcFrame :=
  if df.hasDateCol then
    let kept := df.rows.filterMap (fun r => r.date.map (fun d => (r, d)))
    let base := (sortRows kept).map (mkProcRow df.hasConfirmedCol df.hasDeathsCol)
    .ok ⟨withMA df.hasStateCol base⟩
  else
    .error .keyError

/-- `preprocess_data` (lines 23-75): `None` input propagates as `None`
(lines 25-27); any exception thrown by the body is caught and turned into
`None` (lines 73-75).  The source works on `df_input.copy()` (line 28), so the
caller's frame is untouched — which the pure embedding reflects by
construction. -/
def preprocess_data (dfInput : Option RawFrame) : Option ProcFrame :=
  match dfInput with
  | none => none
  | some df => (preprocessCore df).toOption

/-! ## Feature scaling, ensemble backend and the decomposition model -/

/-- Fitted feature-scaling parameters: per-column mean and scale
(specification §4.2). -/
structure ScalerParams where
  mean : List ℚ
  scale : List ℚ
deriving DecidableEq, Repr

/-- Apply fitted scaling parameters to a feature matrix: each entry becomes
`(x - mean) / scale` columnwise. -/
def applyScaler (p : ScalerParams) (X : List (List ℚ)) : List (List ℚ) :=
  X.map (fun row => (row.zip (p.mean.zip p.scale)).map (fun q => (q.1 - q.2.1) / q.2.2))

/-- Modelled from the spec: the feature scaler's two-phase state (§4.2) —
absent from `src`, where it is the imported `StandardScaler`.  `fitted = none`
is the state before any `fit_transform`. -/
structure FeatureScaler where
  fitted : Option ScalerParams

/-- Modelled from the spec: `transform` before `fit_transform` fails with
`ModelError::NotFitted` (§4.2); otherwise it applies the frozen parameters. -/
def FeatureScaler.transform (s : FeatureScaler) (X : List (List ℚ)) :
    Except PyError (List (List ℚ)) :=
  match s.fitted with
  | none => .error .notFitted
  | some p => .ok (applyScaler p X)

/-- Modelled from the spec: the operations the source imports from the
machine-learning library (§4.2, §4.4), whose implementations are absent from
`src`.  Each is a pure function; all randomness enters through the explicit
seed argument, and `rfFit` also receives the tree count.  A fitted ensemble
is represented by its induced prediction function. -/
structure Backend where
  scalerFit : List (List ℚ) → ScalerParams
  rfFit : List (List ℚ) → List ℚ → Nat → Nat → (List (List ℚ) → List ℚ)
  trainTestSplit : Nat → List (List ℚ) → List ℚ →
    (List (List ℚ) × List (List ℚ) × List ℚ × List ℚ)

/-- Constructor arguments of the decomposition model (source lines 15-20 and
169-174). -/
structure ProphetConfig where
  yearly : Bool
  weekly : Bool
  daily : Bool
  changepointPriorScale : ℚ
deriving DecidableEq, Repr

/-- The configuration both `__init__` (lines 15-20) and
`get_state_predictions` (lines 169-174) pass literally. -/
def defaultProphetConfig : ProphetConfig :=
  { yearly := true, weekly := true, daily := true, changepointPriorScale := 1/20 }

/-- Modelled from the spec: a fitted trend/seasonality decomposition model
(§4.3) — absent from `src`, where it is the imported `Prophet`.  It owns a
fitted linear trend (`k`, `m`), a weekly seasonal table, a residual spread
`sigma` driving the uncertainty bands, and the history dates it was fit on. -/
structure FittedProphet where
  cfg : ProphetConfig
  k : ℚ
  m : ℚ
  weekly : List ℚ
  sigma : ℚ
  histDates : List Nat
deriving DecidableEq, Repr

/-- Least-squares slope of a `(day, value)` series. -/
def olsSlope (h : List (Nat × ℚ)) : ℚ :=
  let n : ℚ := h.length
  let sx := (h.map (fun p => (p.1 : ℚ))).sum
  let sy := (h.map (fun p => p.2)).sum
  let sxx := (h.map (fun p => (p.1 : ℚ) * (p.1 : ℚ))).sum
  let sxy := (h.map (fun p => (p.1 : ℚ) * p.2)).sum
  let den := n * sxx - sx * sx
  if den = 0 then 0 else (n * sxy - sx * sy) / den

/-- Least-squares intercept of a `(day, value)` series. -/
def olsIntercept (h : List (Nat × ℚ)) : ℚ :=
  if h.length = 0 then 0
  else ((h.map (fun p => p.2)).sum - olsSlope h * (h.map (fun p => (p.1 : ℚ))).sum)
    / (h.length : ℚ)

/-- Modelled from the spec: fitting the decomposition (§4.3) — a trend fit
jointly with a weekly seasonal component (the mean detrended residual per
weekday, a discrete stand-in for the spec's fixed-order Fourier series), plus
the residual spread that later drives the uncertainty bands. -/
def fitTS (cfg : ProphetConfig) (hist : List (Nat × ℚ)) : FittedProphet :=
  let k := olsSlope hist
  let m0 := olsIntercept hist
  let wk :=
    if cfg.weekly then
      (List.range 7).map (fun r =>
        let res := (hist.filter (fun p => p.1 % 7 == r)).map
          (fun p => p.2 - (m0 + k * (p.1 : ℚ)))
        if res.length = 0 then 0 else res.sum / (res.length : ℚ))
    else List.replicate 7 0
  let sg :=
    if hist.length = 0 then 0
    else ((hist.map (fun p => |p.2 - (m0 + k * (p.1 : ℚ) + wk.getD (p.1 % 7) 0)|)).sum)
      / (hist.length : ℚ)
  { cfg := cfg, k := k, m := m0, weekly := wk, sigma := sg,
    histDates := hist.map (fun p => p.1) }

/-- Modelled from the spec: `TrendSeasonalityModel.fit`; fewer than ~14 days
of input history is flagged with `ModelError::InsufficientHistory` (§4.3). -/
def Prophet.fit (cfg : ProphetConfig) (hist : List (Nat × ℚ)) :
    Except PyError FittedProphet :=
  if hist.length < 14 then .error .insufficientHistory else .ok (fitTS cfg hist)

/-- Point estimate of the fitted decomposition at day `t`: extended trend plus
the weekly seasonal term (§4.3). -/
def yhatTS (f : FittedProphet) (t : Nat) : ℚ :=
  f.m + f.k * (t : ℚ) + f.weekly.getD (t % 7) 0

/-- Last history date of a fitted decomposition model. -/
def lastDate (f : FittedProphet) : Nat := f.histDates.foldr max 0

/-- Modelled from the spec: half-width of the uncertainty band at day `t`; it
is nonnegative and widens with the number of days past the fitted history
(§4.3: bands widen with forecast horizon). -/
def widthTS (f : FittedProphet) (t : Nat) : ℚ :=
  |f.sigma| * (1 + ((t - lastDate f : Nat) : ℚ))

/-- The forecast frame the source returns: the four columns
`ds`, `yhat`, `yhat_lower`, `yhat_upper` (lines 145 and 181). -/
structure Forecast where
  ds : List Nat
  yhat : List ℚ
  yhat_lower : List ℚ
  yhat_upper : List ℚ
deriving DecidableEq, Repr

instance : Inhabited Forecast := ⟨⟨[], [], [], []⟩⟩

/-- `Prophet.make_future_dataframe(periods=n)`: the history dates followed by
the `n` days after the last history date. -/
def Prophet.make_future_dataframe (f : FittedProphet) (periods : Nat) : List Nat :=
  f.histDates ++ (List.range periods).map (fun i => lastDate f + (i + 1))

/-- Modelled from the spec: evaluating the fitted decomposition on a date
list yields, per date, the point estimate bracketed by the uncertainty band
(§4.3, §3 `ForecastResult`). -/
def Prophet.predictTS (f : FittedProphet) (dates : List Nat) : Forecast :=
  { ds := dates
    yhat := dates.map (yhatTS f)
    yhat_lower := dates.map (fun t => yhatTS f t - widthTS f t)
    yhat_upper := dates.map (fun t => yhatTS f t + widthTS f t) }

/-! ## The engine: `COVIDPredictionModel` -/

/-- Insert a date into a sorted duplicate-free date list (the sorted distinct
group keys that `groupby('Date')` produces; `NaT` keys are dropped by the
caller). -/
def insertUniq (x : Nat) : List Nat → List Nat
  | [] => [x]
  | y :: ys => if x < y then x :: y :: ys else if x = y then y :: ys else y :: insertUniq x ys

/-- The sorted distinct parsed dates of a row list. -/
def datesSortedUnique (rows : List RawRow) : List Nat :=
  rows.foldr (fun r acc => match r.date with | none => acc | some d => insertUniq d acc) []

/-- `df.groupby('Date').agg({'Confirmed': 'sum', ...})` (lines 92-97): one
`(date, summed confirmed)` pair per distinct parsed date, in ascending date
order; `NaN` confirmed cells contribute 0 to the sum. -/
def aggConfirmedByDate (rows : List RawRow) : List (Nat × ℚ) :=
  (datesSortedUnique rows).map (fun d =>
    (d, ((rows.filter (fun r => r.date == some d)).map (fun r => r.confirmed.getD 0)).sum))

/-- `prepare_prophet_data` (lines 77-101): `None` in, `None` out; with a
`state` argument but no region column it returns `None` (lines 84-89);
`groupby('Date')`/`agg` on a frame missing the `Date`, `Confirmed` or
`Deaths` column raises `KeyError`, which the function does not catch. -/
def prepare_prophet_data (dfInput : Option RawFrame) (state : Option String) :
    Except PyError (Option (List (Nat × ℚ))) :=
  match dfInput with
  | none => .ok none
  | some df =>
    match state with
    | some s =>
      if df.hasStateCol then
        if df.hasDateCol && df.hasConfirmedCol && df.hasDeathsCol then
          .ok (some (aggConfirmedByDate (df.rows.filter (fun r => r.state == s))))
        else .error .keyError
      else .ok none
    | none =>
      if df.hasDateCol && df.hasConfirmedCol && df.hasDeathsCol then
        .ok (some (aggConfirmedByDate df.rows))
      else .error .keyError

/-- The engine state held by a `COVIDPredictionModel` instance: the (possibly
unfitted) ensemble model, its construction parameters, the decomposition
model's configuration and fitted state, and the feature scaler. -/
structure COVIDModelState where
  rf : Option (List (List ℚ) → List ℚ)
  rfNumTrees : Nat
  rfSeed : Nat
  prophetCfg : ProphetConfig
  prophetFitted : Option FittedProphet
  scaler : FeatureScaler

instance : Inhabited COVIDModelState :=
  ⟨⟨none, 100, 42, defaultProphetConfig, none, ⟨none⟩⟩⟩

/-- `__init__` (lines 13-21): unfitted ensemble with 100 trees and seed 42,
unfitted decomposition model with the literal configuration, unfitted
scaler. -/
def mkModel : COVIDModelState :=
  { rf := none, rfNumTrees := 100, rfSeed := 42,
    prophetCfg := defaultProphetConfig, prophetFitted := none, scaler := ⟨none⟩ }

/-- The feature row `['Day', 'Month', 'Year', 'DayOfWeek', 'Confirmed_MA7',
'Death_MA7']` of a preprocessed row (line 109). -/
def featureRow (r : ProcRow) : List ℚ :=
  [(r.day : ℚ), (r.month : ℚ), (r.year : ℚ), (r.dayOfWeek : ℚ),
    r.confirmed_ma7, r.death_ma7]

/-- `train_models` (lines 103-128): preprocess (subscripting a `None` result
raises `TypeError`), fit-transform the scaler, split with the literal seed 42,
fit the ensemble with the engine's tree count and seed, aggregate by date and
fit the decomposition model; returns the updated engine and the held-out test
split. -/
def train_models (B : Backend) (e : COVIDModelState) (df : RawFrame) :
    Except PyError (COVIDModelState × (List (List ℚ) × List ℚ)) :=
  match preprocess_data (some df) with
  | none => .error .typeErrorNone
  | some p =>
    let X := p.rows.map featureRow
    let y := p.rows.map (fun r => r.confirmed)
    let sp := B.scalerFit X
    let Xs := applyScaler sp X
    let t := B.trainTestSplit 42 Xs y
    let rfp := B.rfFit t.1 t.2.2.1 e.rfNumTrees e.rfSeed
    match prepare_prophet_data (some df) none with
    | .error er => .error er
    | .ok none => .error .typeErrorNone
    | .ok (some series) =>
      match Prophet.fit e.prophetCfg series with
      | .error er => .error er
      | .ok fitted =>
        .ok ({ e with scaler := ⟨some sp⟩, rf := some rfp, prophetFitted := some fitted },
          (t.2.1, t.2.2.2))

/-- `predict` (lines 130-146): preprocess, transform the features with the
frozen scaler (raising `NotFitted` on an unfitted scaler), run the ensemble
prediction, then return it together with the pre-fitted aggregate
decomposition model's forecast over history plus `days_to_predict` future
days. -/
def predict (e : COVIDModelState) (df : RawFrame) (days_to_predict : Nat) :
    Except PyError (List ℚ × Forecast) :=
  match preprocess_data (some df) with
  | none => .error .typeErrorNone
  | some p =>
    match e.scaler.transform (p.rows.map featureRow) with
    | .error er => .error er
    | .ok Xs =>
      match e.rf with
      | none => .error .notFitted
      | some rfp =>
        match e.prophetFitted with
        | none => .error .modelNotFit
        | some f =>
          .ok (rfp Xs, Prophet.predictTS f (Prophet.make_future_dataframe f days_to_predict))

/-- Mean squared error of predictions against targets. -/
def mseOf (yt yp : List ℚ) : ℚ :=
  ((yt.zip yp).map (fun q => (q.1 - q.2) * (q.1 - q.2))).sum / (yt.length : ℚ)

/-- Coefficient of determination of predictions against targets. -/
def r2Of (yt yp : List ℚ) : ℚ :=
  let mu := yt.sum / (yt.length : ℚ)
  let ssRes := ((yt.zip yp).map (fun q => (q.1 - q.2) * (q.1 - q.2))).sum
  let ssTot := (yt.map (fun v => (v - mu) * (v - mu))).sum
  if ssTot = 0 then (if ssRes = 0 then 1 else 0) else 1 - ssRes / ssTot

/-- `evaluate_models` (lines 148-158): ensemble prediction on the held-out
split (raising `NotFitted` on an unfitted ensemble) and its MSE and R². -/
def evaluate_models (e : COVIDModelState) (Xte : List (List ℚ)) (yte : List ℚ) :
    Except PyError (ℚ × ℚ) :=
  match e.rf with
  | none => .error .notFitted
  | some rfp =>
    let preds := rfp Xte
    .ok (mseOf yte preds, r2Of yte preds)

/-- The per-region forecast `get_state_predictions` computes, as a function of
the inputs alone: filter the raw frame to the region (raising `KeyError`
without the region column), aggregate by date, fit a freshly constructed
decomposition model with the literal configuration of lines 169-174, and
forecast over history plus `days_to_predict` future days. -/
def freshStateForecast (df : RawFrame) (state : String) (days_to_predict : Nat) :
    Except PyError Forecast :=
  if df.hasStateCol then
    match prepare_prophet_data
        (some { df with rows := df.rows.filter (fun r => r.state == state) })
        (some state) with
    | .error er => .error er
    | .ok none => .error .typeErrorNone
    | .ok (some series) =>
      match Prophet.fit defaultProphetConfig series with
      | .error er => .error er
      | .ok f => .ok (Prophet.predictTS f (Prophet.make_future_dataframe f days_to_predict))
  else .error .keyError

/-- `get_state_predictions` (lines 160-181) as a method on the engine state:
filter the raw frame to the requested region (line 163, `KeyError` without
the region column), prepare the region's aggregated series (line 166),
construct and fit a fresh local decomposition model with the literal
configuration (lines 169-175), and forecast (lines 178-181).  The method
assigns to no `self` field, so the engine state returned alongside the
forecast is the state it was called on. -/
def get_state_predictions (e : COVIDModelState) (df : RawFrame) (state : String)
    (days_to_predict : Nat) : COVIDModelState × Except PyError Forecast :=
  if df.hasStateCol then
    match prepare_prophet_data
        (some { df with rows := df.rows.filter (fun r => r.state == state) })
        (some state) with
    | .error er => (e, .error er)
    | .ok none => (e, .error .typeErrorNone)
    | .ok (some series) =>
      match Prophet.fit defaultProphetConfig series with
      | .error er => (e, .error er)
      | .ok f =>
        (e, .ok (Prophet.predictTS f (Prophet.make_future_dataframe f days_to_predict)))
  else (e, .error .keyError)

/-! ## Derived notions used in the statements -/

/-- The `ForecastResult` invariant of the specification (§3): the four columns
have equal length and the point estimate lies between the bounds at every
index. -/
def ForecastInvariant (fc : Forecast) : Prop :=
  fc.yhat.length = fc.ds.length ∧ fc.yhat_lower.length = fc.ds.length ∧
  fc.yhat_upper.length = fc.ds.length ∧
  ∀ i, i < fc.ds.length →
    fc.yhat_lower.getD i 0 ≤ fc.yhat.getD i 0 ∧ fc.yhat.getD i 0 ≤ fc.yhat_upper.getD i 0

/-- The fields of a preprocessed row that the MA7 computation does not touch:
region, date and the two coerced counts. -/
def projRow (r : ProcRow) : String × Nat × ℚ × ℚ := (r.state, r.date, r.confirmed, r.deaths)

/-- The trailing window of at most 7 values at the end of a value list (the
window a min-periods-1 rolling mean of width 7 averages at the last
position). -/
def ma7Window (vals : List ℚ) : List ℚ := vals.drop (vals.length - 7)

/-- The per-row update performed by the MA7 pass on an enumerated row. -/
def withMARow (base : List ProcRow) (ib : Nat × ProcRow) : ProcRow :=
  { ib.2 with
    confirmed_ma7 := (maTransform (fun r => r.confirmed) base).getD ib.1 0
    death_ma7 := (maTransform (fun r => r.deaths) base).getD ib.1 0 }

/-- Arithmetic mean of a value list. -/
def meanOf (l : List ℚ) : ℚ := l.sum / (l.length : ℚ)

/-- The values a trailing MA7 at row `i` averages: among the rows up to and
including `i`, those of row `i`'s own region, clipped to the last 7. -/
def regionWindow (rows : List ProcRow) (i : Nat) (get : ProcRow → ℚ) : List ℚ :=
  ma7Window
    (((rows.take (i + 1)).filter (fun x => x.state == (rows.getD i default).state)).map get)

/-! ## Concrete instances used by witnesses and counterexamples -/

/-- 14 days of observations of a single region `A`, all zero. -/
def rowsW : List RawRow := (List.range 14).map (fun i => ⟨"A", some i, some 0, some 0⟩)

/-- A well-formed raw frame with 14 distinct dates for region `A`. -/
def dfW : RawFrame := ⟨true, true, true, true, rowsW⟩

/-- A concrete instantiation of the external-library operations. -/
def bW : Backend :=
  { scalerFit := fun _ => ⟨[], []⟩
    rfFit := fun _ _ _ _ => fun X => X.map (fun _ => 0)
    trainTestSplit := fun _ X y => (X, X, y, y) }

/-- A frame whose schema lacks the `Date` column. -/
def dfNoDate : RawFrame := ⟨true, false, true, true, [⟨"A", none, some 1, some 1⟩]⟩

/-- Two regions observed on the same date. -/
def dfC3 : RawFrame := ⟨true, true, true, true,
  [⟨"A", some 5, some 1, some 0⟩, ⟨"B", some 5, some 2, some 0⟩]⟩

/-- The preprocessed output for `dfC3`. -/
def outC3 : ProcFrame := (preprocess_data (some dfC3)).getD ⟨[]⟩

/-- A frame whose schema lacks the `Confirmed` column. -/
def dfC4 : RawFrame := ⟨true, true, false, true, [⟨"A", some 3, none, some 0⟩]⟩

/-- A single observation with a negative confirmed count. -/
def dfC6 : RawFrame := ⟨true, true, true, true, [⟨"A", some 0, some (-5), some 0⟩]⟩

/-- The preprocessed output for `dfC6`. -/
def outC6 : ProcFrame := (preprocess_data (some dfC6)).getD ⟨[]⟩

/-- The first preprocessed row of `dfC6`. -/
def procC6 : ProcRow := outC6.rows.getD 0 default

/-- A small constant-valued frame with two regions. -/
def dfC5W : RawFrame := ⟨true, true, true, true,
  [⟨"A", some 0, some 2, some 1⟩, ⟨"A", some 1, some 2, some 1⟩, ⟨"B", some 0, some 2, some 1⟩]⟩

/-- The preprocessed output for `dfC5W`. -/
def outC5W : ProcFrame := (preprocess_data (some dfC5W)).getD ⟨[]⟩

/-- An engine state in the trained phase, with concrete fitted components. -/
def eW : COVIDModelState :=
  { rf := some (fun X => X.map (fun _ => 0)), rfNumTrees := 100, rfSeed := 42,
    prophetCfg := defaultProphetConfig,
    prophetFitted := some (fitTS defaultProphetConfig [(0, 0)]),
    scaler := ⟨some ⟨[], []⟩⟩ }

/-- The successful output of `predict` on the trained engine `eW`. -/
def outW : List ℚ × Forecast := ((predict eW dfW 3).toOption).getD ([], default)

/-- The successful per-region forecast for region `A` of `dfW`. -/
def fcW : Forecast := (((get_state_predictions mkModel dfW "A" 3).2).toOption).getD default

/-- The successful result of training on `dfW` with the backend `bW`. -/
def trainedW : COVIDModelState × (List (List ℚ) × List ℚ) :=
  ((train_models bW mkModel dfW).toOption).getD (default, ([], []))

/-- A query feature matrix. -/
def qW : List (List ℚ) := [[1, 2, 3, 4, 5, 6]]

/-! ## Helper lemmas -/

/-- With a `Date` column present, `preprocess_data` reaches the end of the
`try` block and returns the sorted, coerced, MA7-augmented frame. -/
theorem preprocess_some_of_dateCol (df : RawFrame) (h : df.hasDateCol = true) :
    preprocess_data (some df) =
      some ⟨withMA df.hasStateCol
        ((sortRows (df.rows.filterMap (fun r => r.date.map (fun d => (r, d))))).map
          (mkProcRow df.hasConfirmedCol df.hasDeathsCol))⟩ := by
  simp [preprocess_data, preprocessCore, h, Except.toOption]

/-- Without a `Date` column, `preprocess_data` returns `None`. -/
theorem preprocess_none_of_noDateCol (df : RawFrame) (h : df.hasDateCol = false) :
    preprocess_data (some df) = none := by
  simp [preprocess_data, preprocessCore, h, Except.toOption]

/-- The uncertainty half-width of the modelled decomposition forecast is
nonnegative. -/
theorem widthTS_nonneg (f : FittedProphet) (t : Nat) : 0 ≤ widthTS f t := by
  unfold widthTS
  have h1 : (0 : ℚ) ≤ 1 + ((t - lastDate f : Nat) : ℚ) :=
    add_nonneg zero_le_one (Nat.cast_nonneg _)
  exact mul_nonneg (abs_nonneg _) h1

/-- Every forecast the decomposition model produces satisfies the
`ForecastResult` invariant. -/
theorem forecastInvariant_predictTS (f : FittedProphet) (dates : List Nat) :
    ForecastInvariant (Prophet.predictTS f dates) := by
  refine ⟨by simp [Prophet.predictTS], by simp [Prophet.predictTS],
    by simp [Prophet.predictTS], ?_⟩
  intro i hi
  have hi2 : i < dates.length := by simpa [Prophet.predictTS] using hi
  have hd : ∀ g : Nat → ℚ, ((dates.map g).getD i 0) = g (dates.get ⟨i, hi2⟩) := by
    intro g
    rw [List.getD_eq_getElem?_getD, List.getElem?_map, List.getElem?_eq_getElem hi2]
    rfl
  simp only [Prophet.predictTS] at hi ⊢
  rw [hd, hd, hd]
  have hw := widthTS_nonneg f (dates.get ⟨i, hi2⟩)
  constructor
  · exact sub_le_self _ hw
  · exact le_add_of_nonneg_right hw

/-! ## Claims -/

/-- C10: `preprocess_data` never raises: a `None` input yields `None`, an
internal error in the body yields `None` (line 73-75 catch-all), and a
successful body is returned unchanged.  The source operates on a copy of the
caller's frame (line 28), which the pure embedding reflects by
construction. -/
theorem preprocess_never_raises :
    preprocess_data none = none ∧
    (∀ df e, preprocessCore df = .error e → preprocess_data (some df) = none) ∧
    (∀ df f, preprocessCore df = .ok f → preprocess_data (some df) = some f) := by
  refine ⟨rfl, ?_, ?_⟩ <;> intro df x h <;> simp [preprocess_data, h, Except.toOption]

/-- Witness for C10 at a concrete frame whose body raises (`Date` column
absent). -/
theorem preprocess_never_raises_witness :
    preprocess_data (some dfNoDate) = none :=
  preprocess_never_raises.2.1 dfNoDate .keyError rfl

/-- C4 (amended): a missing `Date` column makes `preprocess_data` return
`None` (a caught `KeyError`, not a structured `DataError::MissingColumn`);
with a `Date` column present the function always produces a normal output,
regardless of missing region/`Confirmed`/`Deaths` columns (those are
defaulted, lines 50-55 and 58-70). -/
theorem missing_column_behavior :
    (∀ df : RawFrame, df.hasDateCol = false → preprocess_data (some df) = none) ∧
    (∀ df : RawFrame, df.hasDateCol = true → (preprocess_data (some df)).isSome = true) := by
  constructor
  · exact preprocess_none_of_noDateCol
  · intro df h
    rw [preprocess_some_of_dateCol df h]
    rfl

/-- C4 counterexample: on a concrete frame structurally missing the required
`Confirmed` column, `preprocess_data` produces a normal output instead of
failing. -/
theorem missing_confirmed_column_no_failure :
    (preprocess_data (some dfC4)).isSome = true := by decide

/-- Witness for C4 (amended) at concrete frames. -/
theorem missing_column_behavior_witness :
    preprocess_data (some dfNoDate) = none ∧ (preprocess_data (some dfW)).isSome = true :=
  ⟨missing_column_behavior.1 dfNoDate rfl, missing_column_behavior.2 dfW rfl⟩

/-- C8: on the freshly constructed (untrained) engine, `predict` on any
well-formed frame and `evaluate_models` on any split fail with
`ModelError::NotFitted`, and the feature scaler's `transform` before
`fit_transform` fails with `ModelError::NotFitted`. -/
theorem untrained_engine_notFitted :
    (∀ (df : RawFrame) (d : Nat), df.hasDateCol = true →
      predict mkModel df d = .error .notFitted) ∧
    (∀ (X : List (List ℚ)) (y : List ℚ), evaluate_models mkModel X y = .error .notFitted) ∧
    (∀ (s : FeatureScaler) (X : List (List ℚ)), s.fitted = none →
      s.transform X = .error .notFitted) := by
  refine ⟨?_, ?_, ?_⟩
  · intro df d h
    rw [predict, preprocess_some_of_dateCol df h]
    rfl
  · intro X y
    rfl
  · intro s X h
    simp [FeatureScaler.transform, h]

/-- Witness for C8 at concrete inputs. -/
theorem untrained_engine_notFitted_witness :
    predict mkModel dfW 3 = .error .notFitted ∧
    evaluate_models mkModel [] [] = .error .notFitted ∧
    FeatureScaler.transform ⟨none⟩ [] = .error .notFitted :=
  ⟨untrained_engine_notFitted.1 dfW 3 rfl, untrained_engine_notFitted.2.1 [] [],
    untrained_engine_notFitted.2.2 ⟨none⟩ [] rfl⟩

/-- `get_state_predictions` is the pair of the unchanged engine and the
engine-independent fresh per-region forecast. -/
theorem get_state_predictions_eq (e : COVIDModelState) (df : RawFrame) (s : String)
    (d : Nat) :
    get_state_predictions e df s d = (e, freshStateForecast df s d) := by
  unfold get_state_predictions freshStateForecast
  by_cases h : df.hasStateCol = true
  · simp only [h, if_true]
    split <;> first | rfl | (split <;> rfl)
  · simp only [Bool.not_eq_true] at h
    simp [h]

/-- C9: every per-region forecast request leaves the engine state (fitted
aggregate decomposition model, ensemble, scaler) unchanged, and its forecast
is the one obtained by fitting a fresh decomposition model on the region's
aggregated series — a function of the request inputs alone, independent of
the engine. -/
theorem getStatePredictions_frame :
    ∀ (e : COVIDModelState) (df : RawFrame) (s : String) (d : Nat),
      (get_state_predictions e df s d).1 = e ∧
      (get_state_predictions e df s d).2 = freshStateForecast df s d := by
  intro e df s d
  rw [get_state_predictions_eq]
  exact ⟨rfl, rfl⟩

/-- The by-date aggregate has one entry per distinct parsed date. -/
theorem aggConfirmedByDate_length (rows : List RawRow) :
    (aggConfirmedByDate rows).length = (datesSortedUnique rows).length :=
  List.length_map _ _

/-- C2: on a structurally well-formed frame, requesting per-region forecasts
for a region whose history has fewer than 14 distinct dates (in particular,
a region with zero observations) fails with
`ModelError::InsufficientHistory`, leaving the engine unchanged. -/
theorem getStatePredictions_insufficient_history :
    ∀ (e : COVIDModelState) (df : RawFrame) (s : String) (d : Nat),
      df.hasStateCol = true → df.hasDateCol = true → df.hasConfirmedCol = true →
      df.hasDeathsCol = true →
      (datesSortedUnique (df.rows.filter (fun r => r.state == s))).length < 14 →
      get_state_predictions e df s d = (e, .error .insufficientHistory) := by
  intro e df s d h1 h2 h3 h4 hlen
  have hfilter : List.filter (fun r => r.state == s) (List.filter (fun r => r.state == s) df.rows)
      = List.filter (fun r => r.state == s) df.rows := by
    rw [List.filter_filter]
    apply List.filter_congr
    intro x _
    exact Bool.and_self _
  simp only [get_state_predictions, prepare_prophet_data, h1, h2, h3, h4, Bool.and_self,
    if_true, hfilter, Prophet.fit]
  rw [if_pos]
  rw [aggConfirmedByDate_length]
  exact hlen

/-- Witness for C2: region `B` has zero observations in `dfW`. -/
theorem getStatePredictions_insufficient_history_witness :
    get_state_predictions mkModel dfW "B" 5 = (mkModel, .error .insufficientHistory) :=
  getStatePredictions_insufficient_history mkModel dfW "B" 5 rfl rfl rfl rfl (by decide)

/-- A successful `train_models` run keeps the engine's ensemble construction
parameters (tree count, seed) unchanged. -/
theorem train_models_cfg (B : Backend) (e : COVIDModelState) (df : RawFrame)
    (r : COVIDModelState × (List (List ℚ) × List ℚ))
    (h : train_models B e df = .ok r) :
    r.1.rfSeed = e.rfSeed ∧ r.1.rfNumTrees = e.rfNumTrees := by
  unfold train_models at h
  split at h
  · exact absurd h (by simp)
  · split at h
    · exact absurd h (by simp)
    · exact absurd h (by simp)
    · split at h
      · exact absurd h (by simp)
      · cases Except.ok.inj h
        exact ⟨rfl, rfl⟩

/-- C7: training two fresh engine instances on identical input produces
identical results — in particular identical ensemble predictions on any
identical query — because the embedded pipeline is a pure function of the
data and the seeds, and both the ensemble seed (42, `__init__`) and the
train/test-split seed (42, line 118) are fixed constants. -/
theorem train_deterministic :
    ∀ (B : Backend) (df : RawFrame) (q : List (List ℚ))
      (r₁ r₂ : COVIDModelState × (List (List ℚ) × List ℚ)),
      train_models B mkModel df = .ok r₁ → train_models B mkModel df = .ok r₂ →
      r₁ = r₂ ∧
      (∀ f₁ f₂, r₁.1.rf = some f₁ → r₂.1.rf = some f₂ → f₁ q = f₂ q) ∧
      r₁.1.rfSeed = 42 ∧ r₁.1.rfNumTrees = 100 := by
  intro B df q r1 r2 h1 h2
  have he : r1 = r2 := Except.ok.inj (h1.symm.trans h2)
  subst he
  refine ⟨rfl, ?_, ?_, ?_⟩
  · intro f1 f2 hf1 hf2
    rw [hf1] at hf2
    cases Option.some.inj hf2
    rfl
  · exact (train_models_cfg B mkModel df r1 h1).1
  · exact (train_models_cfg B mkModel df r1 h1).2

/-- Witness for C7: a successful concrete training run. -/
theorem train_deterministic_witness :
    trainedW = trainedW ∧
    (∀ f₁ f₂, trainedW.1.rf = some f₁ → trainedW.1.rf = some f₂ → f₁ qW = f₂ qW) ∧
    trainedW.1.rfSeed = 42 ∧ trainedW.1.rfNumTrees = 100 :=
  train_deterministic bW dfW qW trainedW trainedW (by rfl) (by rfl)

/-- C1: every forecast the system returns — `predict`'s aggregate forecast
and `get_state_predictions`' per-region forecast — satisfies the
`ForecastResult` invariant: the four columns have equal length and
`yhat_lower[i] ≤ yhat[i] ≤ yhat_upper[i]` at every index. -/
theorem forecast_invariant_all :
    (∀ (e : COVIDModelState) (df : RawFrame) (d : Nat) (out : List ℚ × Forecast),
      predict e df d = .ok out → ForecastInvariant out.2) ∧
    (∀ (e : COVIDModelState) (df : RawFrame) (s : String) (d : Nat) (fc : Forecast),
      (get_state_predictions e df s d).2 = .ok fc → ForecastInvariant fc) := by
  constructor
  · intro e df d out h
    unfold predict at h
    split at h
    · exact absurd h (by simp)
    · split at h
      · exact absurd h (by simp)
      · split at h
        · exact absurd h (by simp)
        · split at h
          · exact absurd h (by simp)
          · cases Except.ok.inj h
            exact forecastInvariant_predictTS _ _
  · intro e df s d fc h
    rw [get_state_predictions_eq] at h
    simp only at h
    unfold freshStateForecast at h
    split at h
    · split at h
      · exact absurd h (by simp)
      · exact absurd h (by simp)
      · split at h
        · exact absurd h (by simp)
        · cases Except.ok.inj h
          exact forecastInvariant_predictTS _ _
    · exact absurd h (by simp)

/-- Witness for C1: concrete successful aggregate and per-region
forecasts. -/
theorem forecast_invariant_all_witness :
    ForecastInvariant outW.2 ∧ ForecastInvariant fcW :=
  ⟨forecast_invariant_all.1 eW dfW 3 outW (by rfl),
    forecast_invariant_all.2 mkModel dfW "A" 3 fcW (by rfl)⟩

/-! ## List lemmas for the preprocessing claims -/

/-- Filtering a one-longer prefix appends the `i`-th element when it passes
the filter. -/
theorem filter_take_succ {α : Type} (l : List α) (p : α → Bool) (i : Nat)
    (hi : i < l.length) (hp : p l[i] = true) :
    (l.take (i + 1)).filter p = ((l.take i).filter p) ++ [l[i]] := by
  rw [List.take_succ, List.getElem?_eq_getElem hi, List.filter_append]
  simp [hp]

/-- The filtered prefix is a prefix of the filtered list. -/
theorem filter_take_prefix {α : Type} (l : List α) (p : α → Bool) (n : Nat) :
    (l.filter p).take ((l.take n).filter p).length = (l.take n).filter p := by
  have hsplit : l.filter p = (l.take n).filter p ++ (l.drop n).filter p := by
    rw [← List.filter_append, List.take_append_drop]
  rw [hsplit, List.take_left]

/-- Entry `k` of the rolling-mean list is the mean of the trailing clipped
window ending at `k`. -/
theorem rollingMeanList_getD (xs : List ℚ) (k : Nat) (hk : k < xs.length) :
    (rollingMeanList xs).getD k 0 =
      ((xs.take (k + 1)).drop (k + 1 - 7)).sum
        / (((xs.take (k + 1)).drop (k + 1 - 7)).length : ℚ) := by
  rw [rollingMeanList, List.getD_eq_getElem?_getD, List.getElem?_map,
    List.getElem?_range hk]
  rfl

/-- The trailing window keeps `min length 7` values. -/
theorem ma7Window_length (vals : List ℚ) : (ma7Window vals).length = min vals.length 7 := by
  simp only [ma7Window, List.length_drop]
  omega

/-- Sum of a constant list. -/
theorem list_sum_const (v : ℚ) : ∀ l : List ℚ, (∀ x ∈ l, x = v) → l.sum = (l.length : ℚ) * v := by
  intro l
  induction l with
  | nil => intro _; simp
  | cons a t ih =>
    intro h
    have ha : a = v := h a (List.mem_cons_self a t)
    have ht := ih (fun x hx => h x (List.mem_cons_of_mem a hx))
    rw [List.sum_cons, ha, ht, List.length_cons]
    push_cast
    ring

/-- `sortRows` permutes its input. -/
theorem sortRows_perm (l : List (RawRow × Nat)) : (sortRows l).Perm l :=
  List.perm_insertionSort rowLe l

/-- `sortRows` sorts by parsed date. -/
theorem sortRows_sorted (l : List (RawRow × Nat)) : List.Sorted rowLe (sortRows l) :=
  List.sorted_insertionSort rowLe l

/-- The `true` branch of the MA7 pass, rowwise. -/
theorem withMA_true_eq (base : List ProcRow) :
    withMA true base = base.enum.map (withMARow base) := rfl

/-- The MA7 pass does not change region, date or the coerced counts. -/
theorem withMA_proj (hs : Bool) (base : List ProcRow) :
    (withMA hs base).map projRow = base.map projRow := by
  cases hs with
  | false => rfl
  | true =>
    rw [withMA_true_eq, List.map_map]
    show base.enum.map (projRow ∘ Prod.snd) = base.map projRow
    rw [← List.map_map, List.enum_map_snd]

/-- The MA7 pass preserves length. -/
theorem withMA_length (hs : Bool) (base : List ProcRow) :
    (withMA hs base).length = base.length := by
  have h := congrArg List.length (withMA_proj hs base)
  simpa [List.length_map] using h

/-- Row `i` after the MA7 pass: the base row with the two transformed
rolling-mean entries. -/
theorem withMA_fields (base : List ProcRow) (i : Nat) (hi : i < base.length) :
    ((withMA true base).getD i default).confirmed_ma7
        = (maTransform (fun r => r.confirmed) base).getD i 0 ∧
    ((withMA true base).getD i default).death_ma7
        = (maTransform (fun r => r.deaths) base).getD i 0 ∧
    projRow ((withMA true base).getD i default) = projRow (base.getD i default) := by
  rw [withMA_true_eq]
  simp only [List.getD_eq_getElem?_getD, List.getElem?_map, List.getElem?_enum,
    List.getElem?_eq_getElem hi, Option.map_some', Option.getD_some]
  simp [withMARow, projRow, List.getD_eq_getElem?_getD]

/-- Two row lists with the same untouched fields have the same
filter-by-region value sequences, for any value selector that only reads
untouched fields. -/
theorem filter_map_proj_congr (s : String) (get : ProcRow → ℚ)
    (hget : ∀ a b : ProcRow, projRow a = projRow b → get a = get b) :
    ∀ l₁ l₂ : List ProcRow, l₁.map projRow = l₂.map projRow →
      (l₁.filter (fun x => x.state == s)).map get
        = (l₂.filter (fun x => x.state == s)).map get := by
  intro l₁
  induction l₁ with
  | nil =>
    intro l₂ h
    cases l₂ with
    | nil => rfl
    | cons b t => simp at h
  | cons a t ih =>
    intro l₂ h
    cases l₂ with
    | nil => simp at h
    | cons b t₂ =>
      simp only [List.map_cons, List.cons.injEq] at h
      obtain ⟨hab, ht⟩ := h
      have hst : a.state = b.state := congrArg (fun q => q.1) hab
      have hg : get a = get b := hget a b hab
      rw [List.filter_cons, List.filter_cons, hst]
      cases hcase : (b.state == s) with
      | false => simpa [hcase] using ih t₂ ht
      | true => simp [hcase, hg, ih t₂ ht]

/-- Inversion of a successful `preprocess_data`: the `Date` column was
present and the output rows are the MA7-augmented sorted kept rows. -/
theorem preprocess_rows_eq (df : RawFrame) (out : ProcFrame)
    (h : preprocess_data (some df) = some out) :
    df.hasDateCol = true ∧
    out.rows = withMA df.hasStateCol
      ((sortRows (df.rows.filterMap (fun r => r.date.map (fun d => (r, d))))).map
        (mkProcRow df.hasConfirmedCol df.hasDeathsCol)) := by
  cases hd : df.hasDateCol with
  | false =>
    rw [preprocess_none_of_noDateCol df hd] at h
    exact absurd h (by simp)
  | true =>
    rw [preprocess_some_of_dateCol df hd] at h
    cases Option.some.inj h
    exact ⟨rfl, rfl⟩

/-- Entry `i` of a grouped rolling-mean transform: the same-region prefix
through row `i` contains the row itself, and the entry is the mean of the
trailing window of at most 7 same-region values up to and including row
`i`. -/
theorem maTransform_getD (get : ProcRow → ℚ) (bs : List ProcRow) (i : Nat)
    (hi : i < bs.length) :
    ((bs.take (i + 1)).filter (fun x => x.state == (bs.getD i default).state)).length
        = ((bs.take i).filter (fun x => x.state == (bs.getD i default).state)).length + 1 ∧
    (maTransform get bs).getD i 0 =
      meanOf (ma7Window (((bs.take (i + 1)).filter
        (fun x => x.state == (bs.getD i default).state)).map get)) := by
  have hbd : bs.getD i default = bs[i] := by
    rw [List.getD_eq_getElem?_getD, List.getElem?_eq_getElem hi, Option.getD_some]
  rw [hbd]
  set p : ProcRow → Bool := fun x => x.state == bs[i].state with hp
  have hpi : p bs[i] = true := beq_self_eq_true _
  have hsucc := filter_take_succ bs p i hi hpi
  have hlen : ((bs.take (i + 1)).filter p).length = ((bs.take i).filter p).length + 1 := by
    rw [hsucc, List.length_append]
    rfl
  refine ⟨hlen, ?_⟩
  have h1 : (maTransform get bs).getD i 0
      = (rollingMeanList ((bs.filter p).map get)).getD (((bs.take i).filter p).length) 0 := by
    unfold maTransform
    simp only [List.getD_eq_getElem?_getD, List.getElem?_map, List.getElem?_enum,
      List.getElem?_eq_getElem hi, Option.map_some', Option.getD_some]
  rw [h1]
  have hprefix : (bs.filter p).take (((bs.take i).filter p).length + 1)
      = (bs.take (i + 1)).filter p := by
    have h2 := filter_take_prefix bs p (i + 1)
    rw [hlen] at h2
    exact h2
  have hle : ((bs.take i).filter p).length + 1 ≤ (bs.filter p).length := by
    have h3 := congrArg List.length hprefix
    rw [List.length_take, hlen] at h3
    omega
  have hposlt : ((bs.take i).filter p).length < ((bs.filter p).map get).length := by
    rw [List.length_map]
    omega
  rw [rollingMeanList_getD _ _ hposlt, ← List.map_take, hprefix]
  unfold meanOf ma7Window
  rw [List.length_map, hlen]

/-- C3 (amended): the date sequence of the preprocessed output is sorted in
non-decreasing order; duplicate dates (several regions observed on the same
day, or duplicate rows) are not removed, so it need not be strictly
increasing. -/
theorem preprocess_dates_sorted :
    ∀ (df : RawFrame) (out : ProcFrame), preprocess_data (some df) = some out →
      List.Chain' (fun a b : Nat => a ≤ b) (out.rows.map (fun r => r.date)) := by
  intro df out h
  obtain ⟨hd, hrows⟩ := preprocess_rows_eq df out h
  have hcomp : ∀ l : List ProcRow, l.map (fun r => r.date)
      = (l.map projRow).map (fun q => q.2.1) := by
    intro l
    rw [List.map_map]
    rfl
  rw [hrows, hcomp, withMA_proj, ← hcomp, List.map_map]
  show List.Chain' (fun a b : Nat => a ≤ b)
    ((sortRows (df.rows.filterMap (fun r => r.date.map (fun d => (r, d))))).map
      (fun rd => rd.2))
  have hsorted : List.Pairwise (fun a b : RawRow × Nat => a.2 ≤ b.2)
      (sortRows (df.rows.filterMap (fun r => r.date.map (fun d => (r, d))))) :=
    sortRows_sorted _
  exact (List.pairwise_map.mpr hsorted).chain'

/-- C3 counterexample: two regions observed on the same date give a
preprocessed output whose dates are not strictly increasing. -/
theorem preprocess_dates_not_strictly_increasing :
    ¬ List.Chain' (fun a b : Nat => a < b) (outC3.rows.map (fun r => r.date)) := by
  rw [show outC3.rows.map (fun r => r.date) = [5, 5] from rfl]
  intro h
  have h2 := (List.chain'_cons.mp h).1
  omega

/-- Witness for C3 (amended) at a concrete frame. -/
theorem preprocess_dates_sorted_witness :
    List.Chain' (fun a b : Nat => a ≤ b) (outC3.rows.map (fun r => r.date)) :=
  preprocess_dates_sorted dfC3 outC3 (by rfl)

/-- C6 (amended): every preprocessed row originates from an input row of the
same region with that parsed date, and its confirmed/deaths values are the
input values with invalid or missing cells (and missing columns) coerced to
0 — with no rounding and no clamping at 0, so negative or fractional input
values pass through unchanged. -/
theorem coercion_fills_invalid_with_zero :
    ∀ (df : RawFrame) (out : ProcFrame), preprocess_data (some df) = some out →
      ∀ r ∈ out.rows, ∃ raw ∈ df.rows, raw.date = some r.date ∧ r.state = raw.state ∧
        r.confirmed = (if df.hasConfirmedCol then raw.confirmed.getD 0 else 0) ∧
        r.deaths = (if df.hasDeathsCol then raw.deaths.getD 0 else 0) := by
  intro df out h r hr
  obtain ⟨hd, hrows⟩ := preprocess_rows_eq df out h
  have hproj := withMA_proj df.hasStateCol
    ((sortRows (df.rows.filterMap (fun rr => rr.date.map (fun d => (rr, d))))).map
      (mkProcRow df.hasConfirmedCol df.hasDeathsCol))
  have h1 : projRow r ∈ out.rows.map projRow := List.mem_map_of_mem projRow hr
  rw [hrows, hproj] at h1
  obtain ⟨b, hb, hbeq⟩ := List.mem_map.mp h1
  obtain ⟨rd, hrd, hrdeq⟩ := List.mem_map.mp hb
  have hrdK : rd ∈ df.rows.filterMap (fun rr => rr.date.map (fun d => (rr, d))) :=
    (sortRows_perm _).mem_iff.mp hrd
  obtain ⟨raw, hraw, hmap⟩ := List.mem_filterMap.mp hrdK
  obtain ⟨dd, hdd, hpair⟩ := Option.map_eq_some'.mp hmap
  subst hpair
  subst hrdeq
  simp only [projRow, mkProcRow, Prod.ext_iff] at hbeq
  obtain ⟨e1, e2, e3, e4⟩ := hbeq
  refine ⟨raw, hraw, ?_, e1.symm, e3.symm, e4.symm⟩
  rw [hdd, e2]

/-- C6 counterexample: a negative confirmed value survives preprocessing
untouched, so the output is not a non-negative integer. -/
theorem negative_confirmed_passes_through :
    outC6.rows.map (fun r => r.confirmed) = [-5] ∧ ¬ (0 : ℚ) ≤ -5 := by decide

/-- Witness for C6 (amended) at a concrete frame. -/
theorem coercion_fills_invalid_with_zero_witness :
    ∃ raw ∈ dfC6.rows, raw.date = some procC6.date ∧ procC6.state = raw.state ∧
      procC6.confirmed = (if dfC6.hasConfirmedCol then raw.confirmed.getD 0 else 0) ∧
      procC6.deaths = (if dfC6.hasDeathsCol then raw.deaths.getD 0 else 0) :=
  coercion_fills_invalid_with_zero dfC6 outC6 (by rfl) procC6
    ((show outC6.rows = [procC6] from rfl) ▸ List.mem_cons_self procC6 [])

/-- C5: with a region column present, the MA7 entry of every preprocessed
row is the arithmetic mean of the trailing window over that row's own
region's values only (for confirmed and deaths alike); the same-region
prefix grows by exactly one at the row itself (so the window holds
`min(position+1, 7)` same-region values, minimum 1); a constant confirmed
series has MA7 constantly equal to that value; and a single-row output's MA7
is that row's own value. -/
theorem ma7_window_characterization :
    ∀ (df : RawFrame) (out : ProcFrame), df.hasStateCol = true →
      preprocess_data (some df) = some out →
      (∀ i, i < out.rows.length →
        (out.rows.getD i default).confirmed_ma7
            = meanOf (regionWindow out.rows i (fun r => r.confirmed)) ∧
        (out.rows.getD i default).death_ma7
            = meanOf (regionWindow out.rows i (fun r => r.deaths)) ∧
        ((out.rows.take (i + 1)).filter
            (fun x => x.state == (out.rows.getD i default).state)).length
          = ((out.rows.take i).filter
              (fun x => x.state == (out.rows.getD i default).state)).length + 1 ∧
        (regionWindow out.rows i (fun r => r.confirmed)).length
          = min (((out.rows.take (i + 1)).filter
              (fun x => x.state == (out.rows.getD i default).state)).length) 7) ∧
      (∀ v : ℚ, (∀ r ∈ out.rows, r.confirmed = v) →
        ∀ i, i < out.rows.length → (out.rows.getD i default).confirmed_ma7 = v) ∧
      (∀ r : ProcRow, out.rows = [r] → r.confirmed_ma7 = r.confirmed) := by
  intro df out hs hout
  obtain ⟨hd, hrows⟩ := preprocess_rows_eq df out hout
  rw [hs] at hrows
  set B : List ProcRow :=
    (sortRows (df.rows.filterMap (fun r => r.date.map (fun d => (r, d))))).map
      (mkProcRow df.hasConfirmedCol df.hasDeathsCol) with hB
  have hgetc : ∀ a b : ProcRow, projRow a = projRow b → a.confirmed = b.confirmed :=
    fun a b hab => congrArg (fun q : String × Nat × ℚ × ℚ => q.2.2.1) hab
  have hgetd : ∀ a b : ProcRow, projRow a = projRow b → a.deaths = b.deaths :=
    fun a b hab => congrArg (fun q : String × Nat × ℚ × ℚ => q.2.2.2) hab
  have hlenB : out.rows.length = B.length := by rw [hrows, withMA_length]
  have hproj : out.rows.map projRow = B.map projRow := by
    rw [hrows]
    exact withMA_proj true B
  have hstate : ∀ i, i < out.rows.length →
      (out.rows.getD i default).state = (B.getD i default).state := by
    intro i hi
    have hi2 : i < B.length := hlenB ▸ hi
    have h3 := (withMA_fields B i hi2).2.2
    rw [← hrows] at h3
    exact congrArg (fun q : String × Nat × ℚ × ℚ => q.1) h3
  have hfeq : ∀ (get : ProcRow → ℚ),
      (∀ a b : ProcRow, projRow a = projRow b → get a = get b) →
      ∀ i, i < out.rows.length → ∀ n,
      ((out.rows.take n).filter
          (fun x => x.state == (out.rows.getD i default).state)).map get
        = ((B.take n).filter (fun x => x.state == (B.getD i default).state)).map get := by
    intro get hget i hi n
    rw [hstate i hi]
    exact filter_map_proj_congr _ get hget _ _
      (by rw [List.map_take, List.map_take, hproj, hB])
  have hflen : ∀ i, i < out.rows.length → ∀ n,
      ((out.rows.take n).filter
          (fun x => x.state == (out.rows.getD i default).state)).length
        = ((B.take n).filter (fun x => x.state == (B.getD i default).state)).length := by
    intro i hi n
    have h4 := congrArg List.length (hfeq (fun r => r.confirmed) hgetc i hi n)
    simpa [List.length_map] using h4
  have part1 : ∀ i, i < out.rows.length →
      (out.rows.getD i default).confirmed_ma7
          = meanOf (regionWindow out.rows i (fun r => r.confirmed)) ∧
      (out.rows.getD i default).death_ma7
          = meanOf (regionWindow out.rows i (fun r => r.deaths)) ∧
      ((out.rows.take (i + 1)).filter
          (fun x => x.state == (out.rows.getD i default).state)).length
        = ((out.rows.take i).filter
            (fun x => x.state == (out.rows.getD i default).state)).length + 1 ∧
      (regionWindow out.rows i (fun r => r.confirmed)).length
        = min (((out.rows.take (i + 1)).filter
            (fun x => x.state == (out.rows.getD i default).state)).length) 7 := by
    intro i hi
    have hi2 : i < B.length := hlenB ▸ hi
    have hwf := withMA_fields B i hi2
    have hmtc := maTransform_getD (fun r => r.confirmed) B i hi2
    have hmtd := maTransform_getD (fun r => r.deaths) B i hi2
    refine ⟨?_, ?_, ?_, ?_⟩
    · have e1 : (out.rows.getD i default).confirmed_ma7
          = (maTransform (fun r => r.confirmed) B).getD i 0 := by
        rw [hrows]
        exact hwf.1
      rw [e1, hmtc.2]
      unfold regionWindow
      rw [hfeq (fun r => r.confirmed) hgetc i hi (i + 1)]
    · have e2 : (out.rows.getD i default).death_ma7
          = (maTransform (fun r => r.deaths) B).getD i 0 := by
        rw [hrows]
        exact hwf.2.1
      rw [e2, hmtd.2]
      unfold regionWindow
      rw [hfeq (fun r => r.deaths) hgetd i hi (i + 1)]
    · rw [hflen i hi (i + 1), hflen i hi i]
      exact hmtc.1
    · unfold regionWindow
      rw [ma7Window_length, List.length_map]
  refine ⟨part1, ?_, ?_⟩
  · intro v hv i hi
    obtain ⟨hc, _, hinc, hmin⟩ := part1 i hi
    rw [hc]
    have hmem : ∀ x ∈ regionWindow out.rows i (fun r => r.confirmed), x = v := by
      intro x hx
      have hx2 : x ∈ ((out.rows.take (i + 1)).filter
          (fun y => y.state == (out.rows.getD i default).state)).map
            (fun r => r.confirmed) := (List.drop_sublist _ _).subset hx
      obtain ⟨rr, hrr, hrx⟩ := List.mem_map.mp hx2
      have hrr2 : rr ∈ out.rows.take (i + 1) := (List.mem_filter.mp hrr).1
      have hrr3 : rr ∈ out.rows := (List.take_sublist _ _).subset hrr2
      rw [← hrx]
      exact hv rr hrr3
    have hlenw : (regionWindow out.rows i (fun r => r.confirmed)).length ≠ 0 := by
      rw [hmin, hinc]
      omega
    unfold meanOf
    rw [list_sum_const v _ hmem]
    exact mul_div_cancel_left₀ v (Nat.cast_ne_zero.mpr hlenw)
  · intro r hr
    have h1 : (0 : Nat) < out.rows.length := by
      rw [hr]
      simp
    obtain ⟨hc, _, _, _⟩ := part1 0 h1
    rw [hr] at hc
    simpa [regionWindow, ma7Window, meanOf, List.filter_cons] using hc

/-- Witness for C5 at a concrete two-region constant frame. -/
theorem ma7_window_characterization_witness :
    (outC5W.rows.getD 0 default).confirmed_ma7 = 2 :=
  (ma7_window_characterization dfC5W outC5W rfl (by rfl)).2.1 2 (by decide) 0 (by decide)

end PandemicProfiler
